import Mathlib

/-
  Verification of the expense-tracking core in src/manajer_anggaran.py
  (classes DatabaseManager and AnggaranHarian).

  Embedding decisions, each anchored to the source:
  * A database state is the list of rows of table `transaksi` together with
    the SQLite AUTOINCREMENT counter: `id INTEGER PRIMARY KEY AUTOINCREMENT`
    assigns max-ever-used + 1 and never reuses an id.
  * `jumlah` is declared REAL and fed Python floats; amounts are modeled as
    exact rationals, the arithmetic idealization the aggregation claims are
    about.
  * `tanggal` is stored as the strftime string YYYY-MM-DD of a
    datetime.date.  Zero-padded ISO strings of the representable dates
    (year at most 9999) compare and equate exactly like the dates they
    denote, so rows carry the date value itself and SQL comparison of the
    stored column is date comparison.
  * A storage-level failure (sqlite3.Error caught on line 53) is modeled by
    an explicit `err : Bool` argument on each call: when true, the statement
    has no effect and `execute_query` yields its failure sentinel.
-/

/-- Calendar date (Python `datetime.date`): year, month, day. -/
structure Tanggal where
  year : Nat
  month : Nat
  day : Nat
deriving DecidableEq

/-- Modelled from the spec: the `Transaksi` value object of `model.py`,
which is not under src/.  Per spec section 6 the caller constructs exactly
a value object of description, amount, category and date; the fields are
read by `tambah_transaksi` as `tx.deskripsi`, `tx.jumlah`, `tx.kategori`,
`tx.tanggal`. -/
structure Transaksi where
  deskripsi : String
  jumlah : ℚ
  kategori : String
  tanggal : Tanggal
deriving DecidableEq

/-- A persisted row of table `transaksi` (schema on lines 66-74 of
src/manajer_anggaran.py). -/
structure Row where
  id : Nat
  deskripsi : String
  jumlah : ℚ
  kategori : String
  tanggal : Tanggal
deriving DecidableEq

/-- State of the `anggaran.db` store: current rows plus the AUTOINCREMENT
counter `nextId` (the id the next successful INSERT will receive). -/
structure DB where
  rows : List Row
  nextId : Nat
deriving DecidableEq

/-- Fresh store right after `_buat_tabel_jika_tidak_ada`: no rows,
AUTOINCREMENT starts issuing ids at 1. -/
def initDB : DB := ⟨[], 1⟩

/-- The `fetch` argument of `execute_query`: `'one'` or `'all'` (absent
models Python `None`). -/
inductive FetchKind where
  | one
  | all
deriving DecidableEq

/-- The Python values `DatabaseManager.execute_query` can return: `None`,
a bool, `cursor.lastrowid`, a single fetched row, or a fetched row list.
`ρ` is the type of rows produced by the cursor for the statement at hand. -/
inductive QueryRet (ρ : Type) where
  | pynone
  | pybool (b : Bool)
  | pyint (n : Nat)
  | pyrow (r : ρ)
  | pylist (rs : List ρ)
deriving DecidableEq

/-- `DatabaseManager.execute_query` (src/manajer_anggaran.py lines 26-55).
`err` says whether the statement raised `sqlite3.Error`; `lastId`,
`fetched1`, `fetchedAll` are the engine's answers when it did not.
Line 55 returns `None` when `is_insert or fetch` is truthy, else `False`;
on success the branches are taken in source order: `lastrowid`, then
`fetchone` (which itself yields Python `None` when no row matched), then
`fetchall`, then `True`. -/
def execute_query (ρ : Type) (is_insert : Bool) (fetch : Option FetchKind)
    (err : Bool) (lastId : Nat) (fetched1 : Option ρ) (fetchedAll : List ρ) :
    QueryRet ρ :=
  if err then
    if is_insert || fetch.isSome then .pynone else .pybool false
  else if is_insert then .pyint lastId
  else
    match fetch with
    | some .one =>
      match fetched1 with
      | some r => .pyrow r
      | none => .pynone
    | some .all => .pylist fetchedAll
    | none => .pybool true

/-- `AnggaranHarian.tambah_transaksi` (lines 77-86): one INSERT of the four
caller-supplied fields; the id is assigned by AUTOINCREMENT.  Returns
`last_id is not None`: `True` on success, `False` when `execute_query`
returned `None` because of a storage error (in which case nothing was
inserted). -/
def tambah_transaksi (db : DB) (tx : Transaksi) (err : Bool) : DB × Bool :=
  if err then (db, false)
  else
    ({ rows := db.rows ++ [⟨db.nextId, tx.deskripsi, tx.jumlah, tx.kategori, tx.tanggal⟩],
       nextId := db.nextId + 1 }, true)

/-- `AnggaranHarian.hapus_transaksi` (lines 102-105): `DELETE FROM transaksi
WHERE id = ?` and the raw `execute_query` outcome is returned, so `True`
even when no row had that id. -/
def hapus_transaksi (db : DB) (i : Nat) (err : Bool) : DB × Bool :=
  if err then (db, false)
  else ({ db with rows := db.rows.filter (fun r => decide (r.id ≠ i)) }, true)

/-- The WHERE clause of the two aggregate queries: every row when no date
filter is supplied, else the rows whose stored date equals the filter. -/
def matchesFilter (t : Option Tanggal) (r : Row) : Bool :=
  match t with
  | none => true
  | some d => decide (r.tanggal = d)

/-- SQL `SUM(jumlah)`: null over zero rows, else the arithmetic sum. -/
def sqlSum (l : List ℚ) : Option ℚ :=
  match l with
  | [] => none
  | _ => some l.sum

/-- `AnggaranHarian.hitung_total_pengeluaran` (lines 107-117): fetch-one on
`SELECT SUM(jumlah)` (with the optional date filter) and then
`result[0] if result and result[0] is not None else 0.0`. -/
def hitung_total_pengeluaran (db : DB) (tanggal : Option Tanggal) (err : Bool) : ℚ :=
  let result : Option (Option ℚ) :=
    if err then none
    else some (sqlSum ((db.rows.filter (matchesFilter tanggal)).map Row.jumlah))
  match result with
  | some (some s) => s
  | _ => 0

/-- `SELECT kategori, SUM(jumlah) ... GROUP BY kategori` over the given
rows: one pair per distinct category value, carrying the sum of the
amounts of exactly that category's rows. -/
def groupByKategori (rows : List Row) : List (String × ℚ) :=
  ((rows.map Row.kategori).dedup).map
    (fun k => (k, ((rows.filter (fun r => decide (r.kategori = k))).map Row.jumlah).sum))

/-- `AnggaranHarian.get_pengeluaran_per_kategori` (lines 119-129):
`return ... if records else ...` maps both a failed fetch (`None`) and an
empty group list to the empty mapping. -/
def get_pengeluaran_per_kategori (db : DB) (tanggal : Option Tanggal) (err : Bool) :
    List (String × ℚ) :=
  let records : Option (List (String × ℚ)) :=
    if err then none
    else some (groupByKategori (db.rows.filter (matchesFilter tanggal)))
  match records with
  | some [] => []
  | some l => l
  | none => []

/-- Helper: with no storage error, `hitung_total_pengeluaran` is the sum of
`jumlah` over the rows matching the filter (`SUM` null coalesced to 0 on
the empty match coincides with the empty sum). -/
theorem hitung_total_eq_sum (db : DB) (f : Option Tanggal) :
    hitung_total_pengeluaran db f false
      = ((db.rows.filter (matchesFilter f)).map Row.jumlah).sum := by
  unfold hitung_total_pengeluaran
  cases h : (db.rows.filter (matchesFilter f)).map Row.jumlah with
  | nil => simp [sqlSum, h]
  | cons a l => simp [sqlSum, h]

/-- C1: for every store state and optional date filter,
`hitung_total_pengeluaran` (no storage error) returns the arithmetic sum
of `jumlah` over exactly the matching rows: all rows when no filter is
supplied, the rows with `tanggal = d` when `d` is; the sum over an empty
match is 0. -/
theorem C1_totalSum_sum_of_matching (db : DB) :
    (hitung_total_pengeluaran db none false = (db.rows.map Row.jumlah).sum)
    ∧ (∀ d : Tanggal,
        hitung_total_pengeluaran db (some d) false
          = ((db.rows.filter (fun r => decide (r.tanggal = d))).map Row.jumlah).sum) := by
  constructor
  · rw [hitung_total_eq_sum,
      List.filter_eq_self.mpr (fun a _ => show matchesFilter none a = true from rfl)]
  · intro d
    rw [hitung_total_eq_sum]
    rfl

/-- Helper: with no storage error and no date filter, the per-category
query is exactly the GROUP BY over all rows (the Python truthiness branch
maps an empty group list to the empty mapping, which is the same value). -/
theorem per_kategori_none (db : DB) :
    get_pengeluaran_per_kategori db none false = groupByKategori db.rows := by
  unfold get_pengeluaran_per_kategori
  rw [List.filter_eq_self.mpr (fun a _ => show matchesFilter none a = true from rfl)]
  cases h : groupByKategori db.rows with
  | nil => simp [h]
  | cons p l => simp [h]

/-- Helper: the keys of the GROUP BY result are exactly the categories
having at least one row. -/
theorem mem_groupByKategori_fst (rows : List Row) (k : String) :
    k ∈ (groupByKategori rows).map Prod.fst ↔ ∃ r ∈ rows, r.kategori = k := by
  unfold groupByKategori
  rw [List.map_map]
  simp only [Function.comp_def]
  constructor
  · intro h
    rcases List.mem_map.mp h with ⟨k', hk', hkk⟩
    rcases List.mem_map.mp (List.mem_dedup.mp hk') with ⟨r, hr, hrk⟩
    exact ⟨r, hr, by rw [hrk, ← hkk]⟩
  · rintro ⟨r, hr, rfl⟩
    exact List.mem_map.mpr ⟨r.kategori,
      List.mem_dedup.mpr (List.mem_map.mpr ⟨r, hr, rfl⟩), rfl⟩

/-- Helper: each GROUP BY pair carries the sum over exactly its
category's rows. -/
theorem groupByKategori_snd (rows : List Row) (p : String × ℚ)
    (hp : p ∈ groupByKategori rows) :
    p.2 = ((rows.filter (fun r => decide (r.kategori = p.1))).map Row.jumlah).sum := by
  unfold groupByKategori at hp
  rcases List.mem_map.mp hp with ⟨k, _, hk⟩
  rw [← hk]

/-- Helper: summing the per-category sums over any finite superset of the
occurring categories recovers the total sum of the rows. -/
theorem sum_over_categories (rows : List Row) (s : Finset String)
    (h : ∀ r ∈ rows, r.kategori ∈ s) :
    (∑ k ∈ s, ((rows.filter (fun r => decide (r.kategori = k))).map Row.jumlah).sum)
      = (rows.map Row.jumlah).sum := by
  induction rows with
  | nil => simp
  | cons r rest ih =>
    have hr : r.kategori ∈ s := h r (List.mem_cons_self r rest)
    have hrest : ∀ x ∈ rest, x.kategori ∈ s :=
      fun x hx => h x (List.mem_cons_of_mem r hx)
    have hsplit : ∀ k : String,
        (((r :: rest).filter (fun x => decide (x.kategori = k))).map Row.jumlah).sum
          = (if r.kategori = k then r.jumlah else 0)
            + ((rest.filter (fun x => decide (x.kategori = k))).map Row.jumlah).sum := by
      intro k
      by_cases hk : r.kategori = k <;> simp [List.filter_cons, hk]
    calc (∑ k ∈ s, (((r :: rest).filter (fun x => decide (x.kategori = k))).map Row.jumlah).sum)
        = ∑ k ∈ s, ((if r.kategori = k then r.jumlah else 0)
            + ((rest.filter (fun x => decide (x.kategori = k))).map Row.jumlah).sum) := by
          exact Finset.sum_congr rfl (fun k _ => hsplit k)
      _ = (∑ k ∈ s, if r.kategori = k then r.jumlah else 0)
            + ∑ k ∈ s, ((rest.filter (fun x => decide (x.kategori = k))).map Row.jumlah).sum := by
          rw [Finset.sum_add_distrib]
      _ = r.jumlah + (rest.map Row.jumlah).sum := by
          rw [ih hrest, Finset.sum_ite_eq s r.kategori (fun _ => r.jumlah), if_pos hr]
      _ = ((r :: rest).map Row.jumlah).sum := by simp

/-- Helper: the GROUP BY values sum to the sum of all amounts. -/
theorem sum_groupByKategori (rows : List Row) :
    ((groupByKategori rows).map Prod.snd).sum = (rows.map Row.jumlah).sum := by
  unfold groupByKategori
  rw [List.map_map]
  simp only [Function.comp_def]
  have hnd : (rows.map Row.kategori).dedup.Nodup := List.nodup_dedup _
  have hts : (rows.map Row.kategori).dedup.toFinset = (rows.map Row.kategori).toFinset := by
    ext x
    simp [List.mem_dedup]
  rw [← List.sum_toFinset _ hnd, hts]
  apply sum_over_categories
  intro r hr
  exact List.mem_toFinset.mpr (List.mem_map.mpr ⟨r, hr, rfl⟩)

/-- C2: with no date filter and no storage error,
`get_pengeluaran_per_kategori` maps exactly the categories having at least
one stored row (each key once), maps each such category to the sum of the
amounts of exactly its rows, and its values sum to the total returned by
`hitung_total_pengeluaran`, with no double-counting. -/
theorem C2_sumByCategory_partition (db : DB) :
    (∀ k : String,
        (∃ r ∈ db.rows, r.kategori = k)
          ↔ k ∈ (get_pengeluaran_per_kategori db none false).map Prod.fst)
    ∧ ((get_pengeluaran_per_kategori db none false).map Prod.fst).Nodup
    ∧ (∀ p ∈ get_pengeluaran_per_kategori db none false,
        p.2 = ((db.rows.filter (fun r => decide (r.kategori = p.1))).map Row.jumlah).sum)
    ∧ ((get_pengeluaran_per_kategori db none false).map Prod.snd).sum
        = hitung_total_pengeluaran db none false := by
  rw [per_kategori_none]
  refine ⟨fun k => (mem_groupByKategori_fst db.rows k).symm, ?_,
    groupByKategori_snd db.rows, ?_⟩
  · unfold groupByKategori
    simp only [List.map_map, Function.comp_def]
    simpa using List.nodup_dedup (db.rows.map Row.kategori)
  · rw [sum_groupByKategori, hitung_total_eq_sum,
      List.filter_eq_self.mpr (fun a _ => show matchesFilter none a = true from rfl)]

/-- Zero-pad the decimal digits of `n` on the left to width `w` (Python
zero-padded numeric formats such as the strftime directives). -/
def padNum (w : Nat) (n : Nat) : String :=
  let s := toString n
  if s.length < w then String.mk (List.replicate (w - s.length) '0') ++ s else s

/-- `strftime of a date with format YYYY-MM-DD`: the stored form written by
`tambah_transaksi` (line 83). -/
def fmtISO (d : Tanggal) : String :=
  padNum 4 d.year ++ "-" ++ padNum 2 d.month ++ "-" ++ padNum 2 d.day

/-- `pd.to_datetime(...).dt.strftime` with format DD-MM-YYYY: the display
form produced by `get_dataframe_transaksi` (line 96). -/
def fmtDisplay (d : Tanggal) : String :=
  padNum 2 d.day ++ "-" ++ padNum 2 d.month ++ "-" ++ padNum 4 d.year

/-- Round a rational to the nearest integer with ties to even, the
rounding of Python's fixed-point float formatting.  Computed on the
numerator and denominator: with `f` the floor of `q`, the fractional part
`q - f` equals `rnum / den`, and it is compared against one half. -/
def roundHalfEven (q : ℚ) : Int :=
  let d : Int := (q.den : Int)
  let f := Int.fdiv q.num d
  let rnum := q.num - f * d
  if 2 * rnum < d then f
  else if d < 2 * rnum then f + 1
  else if f % 2 = 0 then f else f + 1

/-- Insert a dot after every third character of a reversed digit string
(helper for the thousands grouping below). -/
def groupRev : List Char → List Char
  | a :: b :: c :: d :: rest => a :: b :: c :: '.' :: groupRev (d :: rest)
  | l => l

/-- Decimal digits of `n` in groups of three separated by dots. -/
def groupDigits (n : Nat) : String :=
  String.mk ((groupRev (toString n).data.reverse).reverse)

/-- The `Jumlah` column transform of `get_dataframe_transaksi` (line 97):
Python float format with comma grouping and zero decimals, commas then
replaced by dots. -/
def fmtJumlah (q : ℚ) : String :=
  let z := roundHalfEven q
  if z < 0 then "-" ++ groupDigits z.natAbs else groupDigits z.natAbs

/-- A row of the DataFrame built by `get_dataframe_transaksi` (lines
95-98): the id index plus the four formatted columns. -/
structure DisplayRow where
  id : Nat
  tanggal : String
  deskripsi : String
  kategori : String
  jumlah : String
deriving DecidableEq

/-- The per-row DataFrame transform of `get_dataframe_transaksi`: date
reformatted to DD-MM-YYYY, amount reformatted to a dot-grouped whole
number string, description and category taken as stored. -/
def displayRow (r : Row) : DisplayRow :=
  ⟨r.id, fmtDisplay r.tanggal, r.deskripsi, r.kategori, fmtJumlah r.jumlah⟩

/-- Strict order on dates, year then month then day: the order the stored
ISO strings have under SQL text comparison. -/
def tglLt (a b : Tanggal) : Prop :=
  a.year < b.year
    ∨ (a.year = b.year ∧ (a.month < b.month ∨ (a.month = b.month ∧ a.day < b.day)))

instance (a b : Tanggal) : Decidable (tglLt a b) := by
  unfold tglLt
  exact inferInstance

/-- `ORDER BY tanggal DESC, id DESC` (line 90): `a` may precede `b` in the
SELECT output iff `a`'s date is later, or the dates are equal and `a`'s id
is at least `b`'s. -/
def rowBefore (a b : Row) : Prop :=
  tglLt b.tanggal a.tanggal ∨ (a.tanggal = b.tanggal ∧ b.id ≤ a.id)

instance (a b : Row) : Decidable (rowBefore a b) := by
  unfold rowBefore
  exact inferInstance

/-- Helper: the SELECT output order is total. -/
theorem rowBefore_total (a b : Row) : rowBefore a b ∨ rowBefore b a := by
  obtain ⟨ia, sa, qa, ka, ya, ma, da⟩ := a
  obtain ⟨ib, sb, qb, kb, yb, mb, db⟩ := b
  unfold rowBefore tglLt
  simp only [Tanggal.mk.injEq]
  omega

/-- Helper: the SELECT output order is transitive. -/
theorem rowBefore_trans (a b c : Row) :
    rowBefore a b → rowBefore b c → rowBefore a c := by
  obtain ⟨ia, sa, qa, ka, ya, ma, da⟩ := a
  obtain ⟨ib, sb, qb, kb, yb, mb, db⟩ := b
  obtain ⟨ic, sc, qc, kc, yc, mc, dc⟩ := c
  unfold rowBefore tglLt
  simp only [Tanggal.mk.injEq]
  omega

instance : IsTotal Row rowBefore := ⟨rowBefore_total⟩

instance : IsTrans Row rowBefore := ⟨rowBefore_trans⟩

/-- `AnggaranHarian.get_dataframe_transaksi` (lines 88-100): `None` when
the fetch failed (`records is None`), otherwise the rows in the SELECT's
order with the two column reformats applied.  An insertion sort under
`rowBefore` realizes `ORDER BY tanggal DESC, id DESC`. -/
def get_dataframe_transaksi (db : DB) (err : Bool) : Option (List DisplayRow) :=
  if err then none
  else some ((List.insertionSort rowBefore db.rows).map displayRow)

/-- C6: with no storage error the listing is some permutation of the
stored rows arranged so that every earlier entry has a strictly later date
than every later entry, or an equal date and an id at least as large
(most-recently-inserted first), rendered through the DataFrame column
transforms. -/
theorem C6_list_order (db : DB) :
    ∃ l : List Row,
      get_dataframe_transaksi db false = some (l.map displayRow)
      ∧ l.Perm db.rows
      ∧ l.Pairwise (fun a b =>
          tglLt b.tanggal a.tanggal ∨ (a.tanggal = b.tanggal ∧ b.id ≤ a.id)) := by
  refine ⟨List.insertionSort rowBefore db.rows, rfl, List.perm_insertionSort _ _, ?_⟩
  exact List.sorted_insertionSort rowBefore db.rows

/-- C7: a failed fetch makes the listing return the failure marker `none`,
while a store with no transactions lists as `some` of the empty sequence;
the two results are distinct, so callers can tell a read error from no
data. -/
theorem C7_list_error_marker (db dbe : DB) (he : dbe.rows = []) :
    get_dataframe_transaksi db true = none
    ∧ get_dataframe_transaksi dbe false = some []
    ∧ get_dataframe_transaksi db true ≠ get_dataframe_transaksi dbe false := by
  refine ⟨rfl, ?_, ?_⟩ <;> simp [get_dataframe_transaksi, he]

/-- C7 witness: concrete instance at the fresh store. -/
theorem C7_list_error_marker_witness :
    get_dataframe_transaksi initDB true = none
    ∧ get_dataframe_transaksi initDB false = some []
    ∧ get_dataframe_transaksi initDB true ≠ get_dataframe_transaksi initDB false :=
  C7_list_error_marker initDB initDB rfl

/-- Helper: the no-filter WHERE clause keeps every row. -/
theorem filter_matches_none (l : List Row) : l.filter (matchesFilter none) = l :=
  List.filter_eq_self.mpr (fun _ _ => rfl)

/-- C3 counterexample: add one valid transaction (description Lunch,
amount 25000, category Food, date 2024-01-10) to the fresh store.  The
listing holds exactly one entry, but no entry of it carries the date in
the stored format `fmtISO` (YYYY-MM-DD): the single entry's date reads
10-01-2024, the DD-MM-YYYY display rendering, and its amount reads
25.000, a grouped string rather than the input value. -/
theorem C3_counterexample :
    ¬ ∃ e : DisplayRow,
        get_dataframe_transaksi
            (tambah_transaksi initDB ⟨"Lunch", (25000 : ℚ), "Food", ⟨2024, 1, 10⟩⟩ false).1 false
          = some [e]
        ∧ e.tanggal = fmtISO ⟨2024, 1, 10⟩ := by
  rintro ⟨e, h1, h2⟩
  have hc : get_dataframe_transaksi
      (tambah_transaksi initDB ⟨"Lunch", (25000 : ℚ), "Food", ⟨2024, 1, 10⟩⟩ false).1 false
      = some [⟨1, "10-01-2024", "Lunch", "Food", "25.000"⟩] := by decide
  rw [hc] at h1
  simp only [Option.some.injEq, List.cons.injEq, and_true] at h1
  rw [← h1] at h2
  exact absurd h2 (by decide)

/-- C3 amended: adding a valid transaction to a store whose row ids are
all below the autoincrement counter, then listing, yields exactly one
entry carrying the newly assigned id; that entry has the input's
description and category verbatim, the input's date rendered in the
DD-MM-YYYY display format, and the input's amount rendered as a
dot-grouped whole-number string. -/
theorem C3_add_then_list (db : DB) (tx : Transaksi)
    (hfresh : ∀ r ∈ db.rows, r.id < db.nextId) :
    ∃ l : List DisplayRow,
      get_dataframe_transaksi (tambah_transaksi db tx false).1 false = some l
      ∧ l.countP (fun e => decide (e.id = db.nextId)) = 1
      ∧ ∀ e ∈ l, e.id = db.nextId →
          e = ⟨db.nextId, fmtDisplay tx.tanggal, tx.deskripsi, tx.kategori,
               fmtJumlah tx.jumlah⟩ := by
  have hdb1 : (tambah_transaksi db tx false).1
      = ⟨db.rows ++ [⟨db.nextId, tx.deskripsi, tx.jumlah, tx.kategori, tx.tanggal⟩],
         db.nextId + 1⟩ := rfl
  refine ⟨(List.insertionSort rowBefore
      (db.rows ++ [Row.mk db.nextId tx.deskripsi tx.jumlah tx.kategori tx.tanggal])).map
        displayRow, ?_, ?_, ?_⟩
  · rfl
  · rw [List.countP_map,
      (List.perm_insertionSort rowBefore _).countP_eq, List.countP_append]
    have h0 : db.rows.countP
        ((fun e => decide (e.id = db.nextId)) ∘ displayRow) = 0 := by
      rw [List.countP_eq_zero]
      intro a ha
      simp only [Function.comp_apply, displayRow, decide_eq_true_eq]
      exact Nat.ne_of_lt (hfresh a ha)
    rw [h0]
    simp [displayRow]
  · intro e he heid
    rcases List.mem_map.mp he with ⟨r, hr, rfl⟩
    have hid : r.id = db.nextId := heid
    have hr' : r ∈ db.rows
        ++ [⟨db.nextId, tx.deskripsi, tx.jumlah, tx.kategori, tx.tanggal⟩] :=
      (List.mem_insertionSort rowBefore).mp hr
    rcases List.mem_append.mp hr' with h | h
    · exact absurd hid (Nat.ne_of_lt (hfresh r h))
    · have hrw : r = ⟨db.nextId, tx.deskripsi, tx.jumlah, tx.kategori, tx.tanggal⟩ := by
        simpa using h
      subst hrw
      rfl

/-- C3 witness: the amended statement applied at the fresh store and the
concrete Lunch transaction. -/
theorem C3_add_then_list_witness :
    ∃ l : List DisplayRow,
      get_dataframe_transaksi
          (tambah_transaksi initDB ⟨"Lunch", (25000 : ℚ), "Food", ⟨2024, 1, 10⟩⟩ false).1 false
        = some l
      ∧ l.countP (fun e => decide (e.id = initDB.nextId)) = 1
      ∧ ∀ e ∈ l, e.id = initDB.nextId →
          e = ⟨initDB.nextId, fmtDisplay ⟨2024, 1, 10⟩, "Lunch", "Food",
               fmtJumlah (25000 : ℚ)⟩ :=
  C3_add_then_list initDB ⟨"Lunch", (25000 : ℚ), "Food", ⟨2024, 1, 10⟩⟩
    (by intro r hr; simp [initDB] at hr)

/-- Helper: removing, from a list of rows with pairwise distinct ids, the
rows sharing the id of a member `r` lowers the amount sum by exactly
`r.jumlah`. -/
theorem sum_filter_ne_of_nodup (l : List Row) (r : Row) (hr : r ∈ l)
    (hnd : (l.map Row.id).Nodup) :
    ((l.filter (fun x => decide (x.id ≠ r.id))).map Row.jumlah).sum
      = (l.map Row.jumlah).sum - r.jumlah := by
  induction l with
  | nil => cases hr
  | cons a rest ih =>
    rw [List.map_cons, List.nodup_cons] at hnd
    rcases List.mem_cons.mp hr with rfl | hmem
    · have hkeep : rest.filter (fun x => decide (x.id ≠ r.id)) = rest := by
        apply List.filter_eq_self.mpr
        intro x hx
        exact decide_eq_true (fun hEq => hnd.1 (hEq ▸ List.mem_map.mpr ⟨x, hx, rfl⟩))
      rw [List.filter_cons, if_neg (by simp), hkeep, List.map_cons, List.sum_cons]
      ring
    · have haid : a.id ≠ r.id :=
        fun hEq => hnd.1 (hEq ▸ List.mem_map.mpr ⟨r, hmem, rfl⟩)
      rw [List.filter_cons, if_pos (by exact decide_eq_true haid)]
      rw [List.map_cons, List.sum_cons, ih hmem hnd.2, List.map_cons, List.sum_cons]
      ring

/-- C4: deleting an id that exists in a store with pairwise distinct ids
removes exactly that row: no remaining row carries the id, every row with
a different id is retained, nothing new appears, and the total sum drops
by exactly the deleted row's amount. -/
theorem C4_delete_existing (db : DB) (i : Nat) (r : Row)
    (hr : r ∈ db.rows) (hid : r.id = i) (hnd : (db.rows.map Row.id).Nodup) :
    (∀ x ∈ (hapus_transaksi db i false).1.rows, x.id ≠ i)
    ∧ (∀ x ∈ db.rows, x.id ≠ i → x ∈ (hapus_transaksi db i false).1.rows)
    ∧ (∀ x ∈ (hapus_transaksi db i false).1.rows, x ∈ db.rows)
    ∧ hitung_total_pengeluaran (hapus_transaksi db i false).1 none false
        = hitung_total_pengeluaran db none false - r.jumlah := by
  have hrows : (hapus_transaksi db i false).1.rows
      = db.rows.filter (fun x => decide (x.id ≠ i)) := rfl
  refine ⟨?_, ?_, ?_, ?_⟩
  · intro x hx
    rw [hrows] at hx
    exact of_decide_eq_true (List.mem_filter.mp hx).2
  · intro x hx hne
    rw [hrows]
    exact List.mem_filter.mpr ⟨hx, decide_eq_true hne⟩
  · intro x hx
    rw [hrows] at hx
    exact (List.mem_filter.mp hx).1
  · rw [hitung_total_eq_sum, hitung_total_eq_sum, filter_matches_none,
      filter_matches_none, hrows]
    subst hid
    exact sum_filter_ne_of_nodup db.rows r hr hnd

/-- C4 witness: delete the only row of a one-row store. -/
theorem C4_delete_existing_witness :
    (∀ x ∈ (hapus_transaksi ⟨[⟨1, "Lunch", (25000 : ℚ), "Food", ⟨2024, 1, 10⟩⟩], 2⟩ 1 false).1.rows,
        x.id ≠ 1)
    ∧ (∀ x ∈ ([⟨1, "Lunch", (25000 : ℚ), "Food", ⟨2024, 1, 10⟩⟩] : List Row), x.id ≠ 1 →
        x ∈ (hapus_transaksi ⟨[⟨1, "Lunch", (25000 : ℚ), "Food", ⟨2024, 1, 10⟩⟩], 2⟩ 1 false).1.rows)
    ∧ (∀ x ∈ (hapus_transaksi ⟨[⟨1, "Lunch", (25000 : ℚ), "Food", ⟨2024, 1, 10⟩⟩], 2⟩ 1 false).1.rows,
        x ∈ ([⟨1, "Lunch", (25000 : ℚ), "Food", ⟨2024, 1, 10⟩⟩] : List Row))
    ∧ hitung_total_pengeluaran
          (hapus_transaksi ⟨[⟨1, "Lunch", (25000 : ℚ), "Food", ⟨2024, 1, 10⟩⟩], 2⟩ 1 false).1
          none false
        = hitung_total_pengeluaran ⟨[⟨1, "Lunch", (25000 : ℚ), "Food", ⟨2024, 1, 10⟩⟩], 2⟩
            none false - (25000 : ℚ) :=
  C4_delete_existing ⟨[⟨1, "Lunch", (25000 : ℚ), "Food", ⟨2024, 1, 10⟩⟩], 2⟩ 1
    ⟨1, "Lunch", (25000 : ℚ), "Food", ⟨2024, 1, 10⟩⟩
    (List.mem_singleton.mpr rfl) rfl (by decide)

/-- C5: with no storage error, deleting any id (also one matching no row)
returns True; when no stored row carries the id, the store and every
total-sum reading are unchanged. -/
theorem C5_delete_nonexistent (db : DB) (i : Nat) :
    (hapus_transaksi db i false).2 = true
    ∧ ((∀ r ∈ db.rows, r.id ≠ i) →
        (hapus_transaksi db i false).1 = db
        ∧ ∀ f, hitung_total_pengeluaran (hapus_transaksi db i false).1 f false
            = hitung_total_pengeluaran db f false) := by
  refine ⟨rfl, fun hno => ?_⟩
  have hf : db.rows.filter (fun r => decide (r.id ≠ i)) = db.rows :=
    List.filter_eq_self.mpr (fun a ha => decide_eq_true (hno a ha))
  have h1 : (hapus_transaksi db i false).1 = db := by
    show (⟨db.rows.filter (fun r => decide (r.id ≠ i)), db.nextId⟩ : DB) = db
    rw [hf]
  exact ⟨h1, fun f => by rw [h1]⟩

/-- C5 witness: deleting id 999999 from the fresh store. -/
theorem C5_delete_nonexistent_witness :
    (hapus_transaksi initDB 999999 false).2 = true
    ∧ (hapus_transaksi initDB 999999 false).1 = initDB
    ∧ hitung_total_pengeluaran (hapus_transaksi initDB 999999 false).1 none false
        = hitung_total_pengeluaran initDB none false :=
  ⟨(C5_delete_nonexistent initDB 999999).1,
   ((C5_delete_nonexistent initDB 999999).2 (fun r hr => by simp [initDB] at hr)).1,
   ((C5_delete_nonexistent initDB 999999).2 (fun r hr => by simp [initDB] at hr)).2 none⟩

/-- A public mutating call of the Ledger, with whether its statement
raised a storage error: `add` via `tambah_transaksi`, `del` via
`hapus_transaksi`.  The read-only calls do not change the store. -/
inductive Op where
  | add (tx : Transaksi) (err : Bool)
  | del (i : Nat) (err : Bool)

/-- Effect of one Ledger call on the store. -/
def step (db : DB) : Op → DB
  | .add tx err => (tambah_transaksi db tx err).1
  | .del i err => (hapus_transaksi db i err).1

/-- Store after a sequence of Ledger calls starting from `db`. -/
def runFrom (db : DB) (ops : List Op) : DB := ops.foldl step db

/-- The ids handed out by AUTOINCREMENT along a call sequence, in order:
each successful insert is assigned the counter's current value. -/
def assignedIds : DB → List Op → List Nat
  | _, [] => []
  | db, .add tx false :: rest =>
    db.nextId :: assignedIds (step db (.add tx false)) rest
  | db, .add tx true :: rest => assignedIds (step db (.add tx true)) rest
  | db, .del i err :: rest => assignedIds (step db (.del i err)) rest

/-- Invariant tying the rows to the AUTOINCREMENT counter: every stored id
is below the counter and the stored ids are pairwise distinct. -/
def InvDB (db : DB) : Prop :=
  (∀ r ∈ db.rows, r.id < db.nextId) ∧ (db.rows.map Row.id).Nodup

/-- Helper: the AUTOINCREMENT counter never decreases. -/
theorem nextId_le_step (db : DB) (op : Op) : db.nextId ≤ (step db op).nextId := by
  cases op with
  | add tx err =>
    cases err with
    | false => exact Nat.le_succ _
    | true => exact Nat.le_refl _
  | del i err =>
    cases err with
    | false => exact Nat.le_refl _
    | true => exact Nat.le_refl _

/-- Helper: one Ledger call preserves the id invariant. -/
theorem invDB_step (db : DB) (op : Op) (h : InvDB db) : InvDB (step db op) := by
  obtain ⟨hlt, hnd⟩ := h
  cases op with
  | add tx err =>
    cases err with
    | false =>
      constructor
      · intro r hr
        rcases List.mem_append.mp hr with hmem | hmem
        · exact Nat.lt_succ_of_lt (hlt r hmem)
        · have : r = Row.mk db.nextId tx.deskripsi tx.jumlah tx.kategori tx.tanggal := by
            simpa using hmem
          rw [this]
          exact Nat.lt_succ_self _
      · show ((db.rows
            ++ [Row.mk db.nextId tx.deskripsi tx.jumlah tx.kategori tx.tanggal]).map
              Row.id).Nodup
        rw [List.map_append]
        apply List.Nodup.append hnd (List.nodup_singleton _)
        intro x hx hx1
        have hxlt : x < db.nextId := by
          rcases List.mem_map.mp hx with ⟨r, hr, rfl⟩
          exact hlt r hr
        have : x = db.nextId := by simpa using hx1
        omega
    | true => exact ⟨hlt, hnd⟩
  | del i err =>
    cases err with
    | false =>
      constructor
      · intro r hr
        exact hlt r (List.mem_of_mem_filter hr)
      · show ((db.rows.filter (fun r => decide (r.id ≠ i))).map Row.id).Nodup
        exact (List.Sublist.map Row.id (List.filter_sublist _)).nodup hnd
    | true => exact ⟨hlt, hnd⟩

/-- Helper: the id invariant holds after any call sequence from an
invariant state. -/
theorem invDB_runFrom (ops : List Op) :
    ∀ db : DB, InvDB db → InvDB (runFrom db ops) := by
  induction ops with
  | nil => exact fun db h => h
  | cons op rest ih => exact fun db h => ih (step db op) (invDB_step db op h)

/-- Helper: every id assigned along a sequence is at least the starting
counter value. -/
theorem assignedIds_lb (ops : List Op) :
    ∀ (db : DB), ∀ x ∈ assignedIds db ops, db.nextId ≤ x := by
  induction ops with
  | nil => intro db x hx; cases hx
  | cons op rest ih =>
    intro db x hx
    cases op with
    | add tx err =>
      cases err with
      | false =>
        rcases List.mem_cons.mp hx with rfl | hmem
        · exact Nat.le_refl _
        · exact Nat.le_trans (nextId_le_step db (.add tx false)) (ih _ x hmem)
      | true => exact Nat.le_trans (nextId_le_step db (.add tx true)) (ih _ x hx)
    | del i err => exact Nat.le_trans (nextId_le_step db (.del i err)) (ih _ x hx)

/-- Helper: the assigned ids are strictly increasing along any sequence. -/
theorem assignedIds_sorted (ops : List Op) :
    ∀ db : DB, (assignedIds db ops).Pairwise (· < ·) := by
  induction ops with
  | nil => intro db; exact List.Pairwise.nil
  | cons op rest ih =>
    intro db
    cases op with
    | add tx err =>
      cases err with
      | false =>
        refine List.pairwise_cons.mpr ⟨?_, ih _⟩
        intro x hx
        have hstep : (step db (.add tx false)).nextId = db.nextId + 1 := rfl
        have := assignedIds_lb rest (step db (.add tx false)) x hx
        omega
      | true => exact ih _
    | del i err => exact ih _

/-- C8: in every store reachable from the fresh store by any sequence of
add and delete calls (with or without storage errors), the stored ids are
pairwise distinct; moreover the ids assigned along the sequence are
strictly increasing, so an id once assigned is never assigned again,
even after its row is deleted. -/
theorem C8_ids_unique_never_reused (ops : List Op) :
    ((runFrom initDB ops).rows.map Row.id).Nodup
    ∧ (assignedIds initDB ops).Pairwise (· < ·) := by
  have hinit : InvDB initDB := ⟨fun r hr => (by cases hr), List.nodup_nil⟩
  exact ⟨(invDB_runFrom ops initDB hinit).2, assignedIds_sorted ops initDB⟩

/-- C9: on a storage-level failure `execute_query` returns the failure
sentinel of its mode, Python `None` for insert and fetch modes and
`False` for plain mode, and (being a total function into `QueryRet`)
propagates no exception; on success insert mode returns the newly
assigned row id. -/
theorem C9_gateway_sentinels (ρ : Type) (is_insert : Bool) (fetch : Option FetchKind)
    (lastId : Nat) (f1 : Option ρ) (fall : List ρ) :
    ((is_insert = true ∨ fetch.isSome = true) →
        execute_query ρ is_insert fetch true lastId f1 fall = .pynone)
    ∧ ((is_insert = false ∧ fetch = none) →
        execute_query ρ is_insert fetch true lastId f1 fall = .pybool false)
    ∧ (is_insert = true →
        execute_query ρ is_insert fetch false lastId f1 fall = .pyint lastId) := by
  refine ⟨?_, ?_, ?_⟩
  · rintro (rfl | hfetch)
    · rfl
    · unfold execute_query
      rw [if_pos rfl]
      rw [if_pos (by rw [hfetch]; exact Bool.or_true _)]
  · rintro ⟨rfl, rfl⟩
    rfl
  · rintro rfl
    rfl

/-- C9 witness: the three cases at concrete arguments over `Nat` rows. -/
theorem C9_gateway_sentinels_witness :
    execute_query Nat true (some .all) true 7 none [] = .pynone
    ∧ execute_query Nat false none true 7 none [] = .pybool false
    ∧ execute_query Nat true none false 7 none [] = .pyint 7 :=
  ⟨(C9_gateway_sentinels Nat true (some .all) 7 none []).1 (Or.inl rfl),
   (C9_gateway_sentinels Nat false none 7 none []).2.1 ⟨rfl, rfl⟩,
   (C9_gateway_sentinels Nat true none 7 none []).2.2 rfl⟩

/-- C10: a storage failure makes `hitung_total_pengeluaran` return 0 and
`get_pengeluaran_per_kategori` return the empty mapping, the very values
they return for a store with no matching rows, so at these two interfaces
failure and no data are indistinguishable; `get_dataframe_transaksi`, in
contrast, returns `none` on failure and `some` of the empty list on an
empty store, which differ. -/
theorem C10_aggregate_failure_indistinguishable (db : DB) (f : Option Tanggal) :
    hitung_total_pengeluaran db f true = 0
    ∧ get_pengeluaran_per_kategori db f true = []
    ∧ (∀ db2 : DB, db2.rows.filter (matchesFilter f) = [] →
        hitung_total_pengeluaran db2 f false = hitung_total_pengeluaran db f true
        ∧ get_pengeluaran_per_kategori db2 f false = get_pengeluaran_per_kategori db f true)
    ∧ get_dataframe_transaksi db true = none
    ∧ (∀ dbe : DB, dbe.rows = [] →
        get_dataframe_transaksi db true ≠ get_dataframe_transaksi dbe false) := by
  refine ⟨rfl, rfl, ?_, rfl, ?_⟩
  · intro db2 h2
    constructor
    · rw [hitung_total_eq_sum, h2]
      rfl
    · show get_pengeluaran_per_kategori db2 f false = []
      unfold get_pengeluaran_per_kategori
      rw [h2]
      rfl
  · intro dbe he
    simp [get_dataframe_transaksi, he]

/-- C10 witness: concrete instance at the fresh store with no filter. -/
theorem C10_aggregate_failure_indistinguishable_witness :
    hitung_total_pengeluaran initDB none true = 0
    ∧ get_pengeluaran_per_kategori initDB none true = []
    ∧ hitung_total_pengeluaran initDB none false = hitung_total_pengeluaran initDB none true
    ∧ get_pengeluaran_per_kategori initDB none false
        = get_pengeluaran_per_kategori initDB none true
    ∧ get_dataframe_transaksi initDB true ≠ get_dataframe_transaksi initDB false :=
  ⟨(C10_aggregate_failure_indistinguishable initDB none).1,
   (C10_aggregate_failure_indistinguishable initDB none).2.1,
   ((C10_aggregate_failure_indistinguishable initDB none).2.2.1 initDB rfl).1,
   ((C10_aggregate_failure_indistinguishable initDB none).2.2.1 initDB rfl).2,
   (C10_aggregate_failure_indistinguishable initDB none).2.2.2.2 initDB rfl⟩
